import Mathlib

/-!
Verification of the ccsync content-aware synchronization core.

Shallow embedding of the code in `crates/ccsync-core` (comparison,
directory diffing, conflict handling, sync orchestration) and
`crates/ccsync` (scanner and symlink resolution).  Filesystem paths are
modelled as lists of components; filesystem contents (existence, content
digests, modification times, symlink targets) are modelled as explicit
finite data or functions supplied to each operation, mirroring how the
Rust code consumes the real filesystem through `std::fs`.  Fallible Rust
functions returning `Result` become `Except` values; I/O primitives that
the code relies on (hashing an existing file, reading metadata of an
existing file) are idealized as total, so that the remaining error paths
are exactly the ones the code itself constructs.
-/

namespace CCSync

/-- A filesystem path, as a list of components (the model of `std::path::PathBuf`). -/
abbrev Path := List String

/-- The `Display` rendering of a path, used inside error messages. -/
def renderPath (p : Path) : String := String.intercalate "/" p

instance {ε α : Type _} [DecidableEq ε] [DecidableEq α] : DecidableEq (Except ε α) :=
  fun x y =>
    match x, y with
    | .ok a, .ok b =>
        if h : a = b then isTrue (by rw [h])
        else isFalse (fun hc => h (Except.ok.inj hc))
    | .error a, .error b =>
        if h : a = b then isTrue (by rw [h])
        else isFalse (fun hc => h (Except.error.inj hc))
    | .ok _, .error _ => isFalse (fun hc => Except.noConfusion hc)
    | .error _, .ok _ => isFalse (fun hc => Except.noConfusion hc)

/-! ## comparison.rs : ConflictStrategy, ComparisonResult, FileComparator -/

/-- Conflict resolution strategy (`ConflictStrategy` in comparison.rs). -/
inductive ConflictStrategy
  | Fail
  | Overwrite
  | Skip
  | Newer
deriving DecidableEq, Repr

/-- Result of comparing two files (`ComparisonResult` in comparison.rs). -/
inductive ComparisonResult
  | Identical
  | SourceOnly
  | DestinationOnly
  | Conflict (source_newer : Bool) (strategy : ConflictStrategy)
deriving DecidableEq, Repr

/-- The parts of the filesystem that `FileComparator::compare` consults:
path existence, content digest (`FileHasher::hash`, idealized as total on
the paths it is asked about), and modification time
(`TimestampComparator::get_modified_time`, idealized likewise). -/
structure FileSys where
  pathExists : Path → Bool
  digest : Path → Nat
  mtime : Path → Nat

/-- `TimestampComparator::is_newer`: strict comparison of modification
times (`source_time > dest_time` in timestamp.rs). -/
def TimestampComparator.is_newer (fs : FileSys) (source destination : Path) : Bool :=
  decide (fs.mtime destination < fs.mtime source)

/-- `FileComparator::compare` (comparison.rs lines 81-116): fail when
neither path exists, classify one-sided existence, otherwise hash both
and compare digests; on differing digests record recency and the
caller's strategy. -/
def FileComparator.compare (fs : FileSys) (source destination : Path)
    (strategy : ConflictStrategy) : Except String ComparisonResult :=
  match fs.pathExists source, fs.pathExists destination with
  | false, false =>
      .error ("Neither source nor destination file exists: source=" ++
        renderPath source ++ ", dest=" ++ renderPath destination)
  | true, false => .ok .SourceOnly
  | false, true => .ok .DestinationOnly
  | true, true =>
      if fs.digest source = fs.digest destination then
        .ok .Identical
      else
        .ok (.Conflict (TimestampComparator.is_newer fs source destination) strategy)

/-! ## comparison/directory.rs : DirectoryComparator -/

/-- Result of comparing two directories recursively
(`DirectoryComparison` in directory.rs). -/
structure DirectoryComparison where
  added : List Path
  modified : List Path
  removed : List Path
  unchanged : List Path
deriving DecidableEq, Repr

/-- `DirectoryComparison::is_identical`. -/
def DirectoryComparison.is_identical (c : DirectoryComparison) : Bool :=
  c.added.isEmpty && c.modified.isEmpty && c.removed.isEmpty

/-- Input to `DirectoryComparator::compare`: the relative file paths
collected under each root (`collect_files`, which returns a set, hence
the lists are read as sets), and the content digest of each relative
path as seen under the source root and under the destination root. -/
structure DirTrees where
  source_files : List Path
  dest_files : List Path
  srcDigest : Path → Nat
  dstDigest : Path → Nat

/-- The first loop of `DirectoryComparator::compare` (directory.rs lines
68-87): walk the source files in order, sending each to added /
modified / unchanged. -/
def classifySourceFiles (t : DirTrees) : List Path → List Path × List Path × List Path
  | [] => ([], [], [])
  | p :: rest =>
      let (a, m, u) := classifySourceFiles t rest
      if p ∈ t.dest_files then
        if t.srcDigest p = t.dstDigest p then (a, m, p :: u) else (a, p :: m, u)
      else (p :: a, m, u)

/-- `DirectoryComparator::compare` (directory.rs lines 54-102): the
source-side loop, then the destination-side loop collecting `removed`. -/
def DirectoryComparator.compare (t : DirTrees) : DirectoryComparison :=
  let (a, m, u) := classifySourceFiles t t.source_files
  let r := t.dest_files.filter (fun p => decide (p ∉ t.source_files))
  ⟨a, m, r, u⟩

/-! ## scanner/symlinks.rs : SymlinkResolver -/

/-- A filesystem node as seen through `fs::symlink_metadata`: a regular
file, a directory, a symlink with its target, or nothing at that path.
Symlink targets are modelled as absolute paths (the code resolves
relative targets against the link's parent only to build an error
message). -/
inductive FsNode
  | file
  | dir
  | symlink (target : Path)
  | absent
deriving DecidableEq, Repr

/-- A filesystem, for the symlink resolver: what node sits at each path. -/
abbrev SymFs := Path → FsNode

/-- `Metadata::is_symlink`. -/
def FsNode.isSymlinkNode : FsNode → Bool
  | .symlink _ => true
  | _ => false

/-- `fs::read_link`: the target of a symlink, failure on anything else. -/
def readLink (fs : SymFs) (p : Path) : Option Path :=
  match fs p with
  | .symlink t => some t
  | _ => none

/-- `dunce::canonicalize` (std `fs::canonicalize` on Unix), modelled as
the OS resolves it: follow the symlink chain, failing on a missing path
and failing when the chain exceeds the OS bound on followed links
(`ELOOP`, which is what a symlink cycle produces). -/
def canonicalizeFuel (fs : SymFs) : Nat → Path → Option Path
  | 0, _ => none
  | n + 1, p =>
      match fs p with
      | .absent => none
      | .symlink t => canonicalizeFuel fs n t
      | _ => some p

/-- The OS bound on followed symlinks (Linux `MAXSYMLINKS` is 40). -/
def maxLinks : Nat := 40

/-- One `canonicalize` call. -/
def canonicalize (fs : SymFs) (p : Path) : Option Path :=
  canonicalizeFuel fs maxLinks p

/-- Result of resolving a path (`ResolvedPath` in symlinks.rs). -/
inductive ResolvedPath
  | Regular (p : Path)
  | Symlink (p : Path)
  | Resolved (p : Path)
deriving DecidableEq, Repr

/-- `ResolvedPath::into_path`. -/
def ResolvedPath.into_path : ResolvedPath → Path
  | .Regular p => p
  | .Symlink p => p
  | .Resolved p => p

/-- The errors `SymlinkResolver` constructs, plus a fuel sentinel used
only to give the Rust `loop` a Lean definition; the theorems show the
sentinel is never returned. -/
inductive ResolveError
  | metadataUnreadable (p : Path)
  | brokenSymlink (link target : Path)
  | symlinkLoop (p : Path)
  | outOfFuel
deriving DecidableEq, Repr

/-- Rendering of a resolver error, as the messages in symlinks.rs. -/
def ResolveError.render : ResolveError → String
  | .metadataUnreadable p => "Failed to read metadata for " ++ renderPath p
  | .brokenSymlink l t => "Broken symlink: " ++ renderPath l ++ " -> " ++ renderPath t
  | .symlinkLoop p => "Symlink loop detected: " ++ renderPath p
  | .outOfFuel => "out of fuel"

/-- `SymlinkResolver::resolve_symlink_chain` (symlinks.rs lines 80-127):
the `loop` body, with the visited set and the current hop explicit and
fuel standing in for the unbounded `loop`.  Canonicalization failure
falls back to `read_link` to name the unreachable target; a canonical
path already visited is a loop; a canonical path that is still a symlink
continues the chain. -/
def resolveSymlinkChainFuel (fs : SymFs) (orig : Path) :
    Nat → List Path → Path → Except ResolveError ResolvedPath
  | 0, _, _ => .error .outOfFuel
  | n + 1, visited, current =>
      match canonicalize fs current with
      | none =>
          match readLink fs current with
          | none => .error (.metadataUnreadable current)
          | some t => .error (.brokenSymlink orig t)
      | some canonical =>
          if canonical ∈ visited then .error (.symlinkLoop orig)
          else
            match fs canonical with
            | .absent => .error (.metadataUnreadable canonical)
            | .symlink _ =>
                resolveSymlinkChainFuel fs orig n (canonical :: visited) canonical
            | _ => .ok (.Resolved canonical)

/-- Fuel given to the chain loop; the theorems show any positive amount
gives the same answer. -/
def chainFuel : Nat := 64

/-- `SymlinkResolver::resolve_symlink_chain` entry: empty visited set,
starting from the link itself. -/
def resolveSymlinkChain (fs : SymFs) (p : Path) : Except ResolveError ResolvedPath :=
  resolveSymlinkChainFuel fs p chainFuel [] p

/-- `SymlinkResolver::resolve` (symlinks.rs lines 61-77): read symlink
metadata (failing when the path is absent), return `Regular` for a
non-symlink, return the link unresolved in preserve mode, otherwise
follow the chain. -/
def SymlinkResolver.resolve (preserve : Bool) (fs : SymFs) (p : Path) :
    Except ResolveError ResolvedPath :=
  match fs p with
  | .absent => .error (.metadataUnreadable p)
  | node =>
      if node.isSymlinkNode = false then .ok (.Regular p)
      else if preserve then .ok (.Symlink p)
      else resolveSymlinkChain fs p

/-- The n-th hop of the symlink chain starting at a path (stops at the
first non-symlink). -/
def iterTarget (fs : SymFs) : Nat → Path → Path
  | 0, p => p
  | n + 1, p =>
      match fs p with
      | .symlink t => iterTarget fs n t
      | _ => p

/-- The symlink chain from `p` never reaches a non-symlink: every hop is
again a symlink.  A symlink cycle of any length has this property. -/
def InfiniteSymlinkChain (fs : SymFs) (p : Path) : Prop :=
  ∀ n, (fs (iterTarget fs n p)).isSymlinkNode = true

/-- The concrete two-cycle `link1 -> link2 -> link1` from the spec. -/
def fsLoop : SymFs := fun p =>
  if p = ["link1"] then .symlink ["link2"]
  else if p = ["link2"] then .symlink ["link1"]
  else .absent

/-! ## scanner.rs : Scanner -/

/-- Type of directory scanning (`ScanMode` in scanner.rs). -/
inductive ScanMode
  | Flat
  | OneLevel
  | Recursive
deriving DecidableEq, Repr

/-- A scanned file with the mode that found it (`ScannedFile`). -/
structure ScannedFile where
  path : Path
  mode : ScanMode
deriving DecidableEq, Repr

/-- What one of the three fixed subtrees looks like to the walker: the
subtree is missing, or reading it fails, or it yields candidate paths.
The walkers themselves (agents.rs / skills.rs / commands.rs) are
abstracted to their outcome. -/
inductive DirState
  | missing
  | unreadable (msg : String)
  | readable (files : List Path)
deriving DecidableEq, Repr

/-- The three subtrees a source root is scanned for. -/
structure ScanFs where
  agents : DirState
  skills : DirState
  commands : DirState

/-- Result of a scan with warnings (`ScanResult` in scanner.rs). -/
structure ScanResult where
  files : List ScannedFile
  warnings : List String
deriving DecidableEq, Repr

/-- `Scanner::scan_directory` (scanner.rs lines 116-131): a missing
subtree is `Ok(vec![])`; otherwise the mode-specific walker either
fails or yields paths, each tagged with the mode. -/
def Scanner.scan_directory (d : DirState) (mode : ScanMode) :
    Except String (List ScannedFile) :=
  match d with
  | .missing => .ok []
  | .unreadable msg => .error msg
  | .readable files => .ok (files.map (fun p => ⟨p, mode⟩))

/-- One `match Self::scan_directory(..)` arm of `Scanner::scan`
(scanner.rs lines 76-89): extend the candidates on success, push one
warning on failure. -/
def subtreeStep (acc : List ScannedFile × List String) (d : DirState)
    (mode : ScanMode) (name : String) : List ScannedFile × List String :=
  match Scanner.scan_directory d mode with
  | .ok fs => (acc.1 ++ fs, acc.2)
  | .error e => (acc.1, acc.2 ++ ["Failed to scan " ++ name ++ " directory: " ++ e])

/-- The filtering-and-resolution loop of `Scanner::scan` (scanner.rs
lines 92-107): candidates passing the filter are resolved; a resolved
candidate is kept under its resolved path, a failed resolution becomes a
warning and the candidate is dropped. -/
def resolvePhase (filterF : Path → Bool)
    (resolver : Path → Except ResolveError ResolvedPath) :
    List ScannedFile → List ScannedFile × List String
  | [] => ([], [])
  | f :: rest =>
      let (fsr, ws) := resolvePhase filterF resolver rest
      if filterF f.path then
        match resolver f.path with
        | .ok r => (⟨r.into_path, f.mode⟩ :: fsr, ws)
        | .error e => (fsr, ("Symlink resolution failed: " ++ e.render) :: ws)
      else (fsr, ws)

/-- `Scanner::scan` (scanner.rs lines 71-113): scan the three fixed
subtrees, then filter and resolve each candidate.  Total: scanning never
fails the run. -/
def Scanner.scan (filterF : Path → Bool)
    (resolver : Path → Except ResolveError ResolvedPath) (fs : ScanFs) : ScanResult :=
  let acc0 := subtreeStep ([], []) fs.agents .Flat "agents"
  let acc1 := subtreeStep acc0 fs.skills .OneLevel "skills"
  let acc2 := subtreeStep acc1 fs.commands .Recursive "commands"
  let rp := resolvePhase filterF resolver acc2.1
  ⟨rp.1, acc2.2 ++ rp.2⟩

/-- The candidates a subtree contributes: nothing unless it is readable. -/
def dirFiles (d : DirState) (mode : ScanMode) : List ScannedFile :=
  match d with
  | .readable files => files.map (fun p => ⟨p, mode⟩)
  | _ => []

/-- The warnings a subtree contributes: exactly one when unreadable,
none when missing or readable. -/
def dirWarnings (d : DirState) (name : String) : List String :=
  match d with
  | .unreadable e => ["Failed to scan " ++ name ++ " directory: " ++ e]
  | _ => []

/-- All candidates of the three subtrees, in scan order. -/
def subtreeFiles (fs : ScanFs) : List ScannedFile :=
  dirFiles fs.agents .Flat ++ dirFiles fs.skills .OneLevel ++
    dirFiles fs.commands .Recursive

/-- All subtree warnings, in scan order. -/
def subtreeWarnings (fs : ScanFs) : List String :=
  dirWarnings fs.agents "agents" ++ dirWarnings fs.skills "skills" ++
    dirWarnings fs.commands "commands"

/-! ## sync.rs / sync/actions.rs : SyncResult, SyncAction -/

/-- Synchronization statistics (`SyncResult` in sync.rs).  The
`HashMap<String, usize>` of skip reasons is modelled as an association
list. -/
structure SyncResult where
  created : Nat
  updated : Nat
  deleted : Nat
  skipped : Nat
  skip_reasons : List (String × Nat)
  conflicts : Nat
  errors : List String
deriving DecidableEq, Repr

/-- `SyncResult::default()`. -/
def initResult : SyncResult := ⟨0, 0, 0, 0, [], 0, []⟩

/-- `SyncResult::is_success`. -/
def SyncResult.is_success (r : SyncResult) : Bool := r.errors.isEmpty

/-- The `*result.skip_reasons.entry(reason).or_insert(0) += 1` idiom:
bump a key's count in the association list, inserting it at 0 first when
absent. -/
def bumpReason (m : List (String × Nat)) (k : String) : List (String × Nat) :=
  match m with
  | [] => [(k, 1)]
  | (k', v) :: rest =>
      if k' = k then (k', v + 1) :: rest else (k', v) :: bumpReason rest k

/-- Total count recorded across all skip reasons. -/
def sumReasons (m : List (String × Nat)) : Nat := (m.map Prod.snd).sum

/-- A sync action (`SyncAction` as consumed by orchestrator.rs and
executor.rs, with the file and directory variants). -/
inductive SyncAction
  | Create (source dest : Path)
  | CreateDirectory (source dest : Path)
  | Skip (path : Path) (reason : String)
  | Conflict (source dest : Path) (strategy : ConflictStrategy) (source_newer : Bool)
  | DirectoryConflict (source dest : Path) (strategy : ConflictStrategy) (source_newer : Bool)
deriving DecidableEq, Repr

/-- The `matches!(action, SyncAction::Skip { .. })` test of
orchestrator.rs line 107. -/
def SyncAction.isSkip : SyncAction → Bool
  | .Skip _ _ => true
  | _ => false

/-- `SyncActionResolver::resolve` (actions.rs): the pure mapping from a
comparison result to a sync action. -/
def SyncActionResolver.resolve (source dest : Path)
    (comparison : ComparisonResult) : SyncAction :=
  match comparison with
  | .Identical => .Skip source "identical content"
  | .SourceOnly => .Create source dest
  | .DestinationOnly => .Skip dest "source doesn't exist"
  | .Conflict source_newer strategy => .Conflict source dest strategy source_newer

/-- The file branch of `SyncEngine::determine_sync_action`
(orchestrator.rs lines 194-202): compare the pair, then resolve — the
comparison error, when any, passes through. -/
def determine_sync_action_file (fs : FileSys) (source dest : Path)
    (strategy : ConflictStrategy) : Except String SyncAction :=
  (FileComparator.compare fs source dest strategy).map
    (SyncActionResolver.resolve source dest)

/-! ## sync/executor.rs : FileOperationExecutor -/

/-- A physical filesystem mutation the executor performs.  `removeDirAll`
stands for the `if dest.exists() { fs::remove_dir_all(dest)?; }` guard
plus removal, i.e. remove-if-present. -/
inductive Effect
  | copyFile (source dest : Path)
  | copyDir (source dest : Path)
  | removeDirAll (dest : Path)
deriving DecidableEq, Repr

/-- `FileOperationExecutor::handle_conflict` (executor.rs lines 76-123).
The returned effect list is what the non-dry-run branch performs;
dry-run performs none.  The copy itself is idealized as succeeding, so
the only error is the `Fail` bail-out the code constructs. -/
def handle_conflict (dryRun : Bool) (source dest : Path)
    (strategy : ConflictStrategy) (source_newer : Bool) (result : SyncResult) :
    Except String (SyncResult × List Effect) :=
  match strategy with
  | .Fail =>
      .error ("Conflict: " ++ renderPath source ++ " <-> " ++ renderPath dest ++
        " (use --conflict to resolve)")
  | .Overwrite =>
      .ok ({ result with updated := result.updated + 1 },
        if dryRun then [] else [.copyFile source dest])
  | .Skip =>
      .ok ({ result with conflicts := result.conflicts + 1 }, [])
  | .Newer =>
      if source_newer then
        .ok ({ result with updated := result.updated + 1 },
          if dryRun then [] else [.copyFile source dest])
      else
        .ok ({ result with skipped := result.skipped + 1 }, [])

/-- `FileOperationExecutor::handle_directory_conflict` (executor.rs
lines 142-200): as `handle_conflict` but overwriting removes the
destination subtree and then copies recursively. -/
def handle_directory_conflict (dryRun : Bool) (source dest : Path)
    (strategy : ConflictStrategy) (source_newer : Bool) (result : SyncResult) :
    Except String (SyncResult × List Effect) :=
  match strategy with
  | .Fail =>
      .error ("Directory conflict: " ++ renderPath source ++ " <-> " ++
        renderPath dest ++ " (use --conflict to resolve)")
  | .Overwrite =>
      .ok ({ result with updated := result.updated + 1 },
        if dryRun then [] else [.removeDirAll dest, .copyDir source dest])
  | .Skip =>
      .ok ({ result with conflicts := result.conflicts + 1 }, [])
  | .Newer =>
      if source_newer then
        .ok ({ result with updated := result.updated + 1 },
          if dryRun then [] else [.removeDirAll dest, .copyDir source dest])
      else
        .ok ({ result with skipped := result.skipped + 1 }, [])

/-- `FileOperationExecutor::execute` (executor.rs lines 30-73): perform
the action, mutate the statistics, and report the filesystem effects of
the non-dry-run branch. -/
def execute (dryRun : Bool) (action : SyncAction) (result : SyncResult) :
    Except String (SyncResult × List Effect) :=
  match action with
  | .Create source dest =>
      .ok ({ result with created := result.created + 1 },
        if dryRun then [] else [.copyFile source dest])
  | .CreateDirectory source dest =>
      .ok ({ result with created := result.created + 1 },
        if dryRun then [] else [.copyDir source dest])
  | .Skip _ reason =>
      .ok ({ result with
              skipped := result.skipped + 1,
              skip_reasons := bumpReason result.skip_reasons reason }, [])
  | .Conflict source dest strategy source_newer =>
      handle_conflict dryRun source dest strategy source_newer result
  | .DirectoryConflict source dest strategy source_newer =>
      handle_directory_conflict dryRun source dest strategy source_newer result

/-! ## sync/orchestrator.rs : SyncEngine -/

/-- The tri-state outcome of the approval callback (`Result<bool>`:
`Ok(true)` proceed, `Ok(false)` decline, `Err` abort). -/
inductive Approval
  | proceed
  | decline
  | abort (msg : String)
deriving DecidableEq, Repr

/-- `SyncEngine::apply_approval` (orchestrator.rs lines 207-256): with
no approver every action proceeds unchanged; a proceeding `Fail`
conflict (file or directory) is rewritten to `Overwrite`; a decline
counts a skip under "user skipped"; an abort propagates as the error. -/
def apply_approval (action : SyncAction)
    (approver : Option (SyncAction → Approval)) (result : SyncResult) :
    Except String (Option SyncAction × SyncResult) :=
  match approver with
  | some approve =>
      match approve action with
      | .proceed =>
          .ok (some (match action with
            | .Conflict source dest .Fail source_newer =>
                .Conflict source dest .Overwrite source_newer
            | .DirectoryConflict source dest .Fail source_newer =>
                .DirectoryConflict source dest .Overwrite source_newer
            | a => a), result)
      | .decline =>
          .ok (none, { result with
            skipped := result.skipped + 1,
            skip_reasons := bumpReason result.skip_reasons "user skipped" })
      | .abort msg => .error msg
  | none => .ok (some action, result)

/-- One candidate of the orchestrator loop: whether the pattern matcher
admits its relative path (`true` also when no matcher is configured),
and the outcome `determine_sync_action` produces for it — which is
fallible, since it runs the comparators (a candidate whose paths vanish
between scan and comparison, or whose hashing fails, determines to an
error). -/
structure Candidate where
  included : Bool
  determined : Except String SyncAction
deriving DecidableEq, Repr

/-- The body of the `for file in &scan_result.files` loop of
`SyncEngine::sync_with_approver` (orchestrator.rs lines 85-132): a
pattern-excluded candidate only counts a skip; a failed action
determination propagates at once (the `?` on `determine_sync_action`);
a `Skip` action executes without approval; everything else passes
through approval and, when some action comes back, executes it —
execution errors are appended to the error list. -/
def processCandidate (dryRun : Bool) (approver : Option (SyncAction → Approval))
    (c : Candidate) (result : SyncResult) : Except String SyncResult :=
  if c.included = false then
    .ok { result with skipped := result.skipped + 1 }
  else
    match c.determined with
    | .error e => .error e
    | .ok action =>
        if action.isSkip then
          match execute dryRun action result with
          | .ok (r, _) => .ok r
          | .error e => .ok { result with errors := result.errors ++ [e] }
        else
          match apply_approval action approver result with
          | .ok (some toExecute, r) =>
              match execute dryRun toExecute r with
              | .ok (r2, _) => .ok r2
              | .error e => .ok { r with errors := r.errors ++ [e] }
          | .ok (none, r) => .ok r
          | .error e => .error e

/-- Every included candidate's action determination succeeded (the
comparators hit no I/O error and each candidate still existed). -/
def DeterminationSucceeds (cands : List Candidate) : Prop :=
  ∀ c ∈ cands, c.included = true → ∃ a, c.determined = Except.ok a

/-- The whole candidate loop: process candidates in order, stopping when
a candidate propagates an error (an abort, or a failed determination). -/
def runCandidates (dryRun : Bool) (approver : Option (SyncAction → Approval)) :
    List Candidate → SyncResult → Except String SyncResult
  | [], result => .ok result
  | c :: rest, result =>
      match processCandidate dryRun approver c result with
      | .ok r => runCandidates dryRun approver rest r
      | .error e => .error e

/-- The bundled failure message of orchestrator.rs lines 140-146. -/
def failMessage (errors : List String) : String :=
  "Sync failed with " ++ toString errors.length ++ " error(s):\n  - " ++
    String.intercalate "\n  - " errors

/-- `SyncEngine::sync_with_approver` after scanning and action
determination (orchestrator.rs lines 68-149): run every candidate, then
fail at the end exactly when errors were collected, bundling them. -/
def sync_with_approver (dryRun : Bool)
    (approver : Option (SyncAction → Approval)) (cands : List Candidate) :
    Except String SyncResult :=
  match runCandidates dryRun approver cands initResult with
  | .error e => .error e
  | .ok result =>
      if result.errors.isEmpty then .ok result
      else .error (failMessage result.errors)

/-- The per-candidate step as a total function; under a never-aborting
approver it agrees with `processCandidate`. -/
def stepOk (dryRun : Bool) (approver : Option (SyncAction → Approval))
    (result : SyncResult) (c : Candidate) : SyncResult :=
  match processCandidate dryRun approver c result with
  | .ok r => r
  | .error _ => result

/-- The approver (when present) never signals an abort. -/
def NeverAborts (approver : Option (SyncAction → Approval)) : Prop :=
  ∀ f, approver = some f → ∀ a msg, f a ≠ .abort msg

/-! ## Concrete instances used by witnesses -/

/-- A two-file filesystem for exercising `FileComparator::compare`:
both files exist, contents differ, the source is strictly newer. -/
def fsW : FileSys where
  pathExists := fun p => decide (p = ["a"] ∨ p = ["b"])
  digest := fun p => if p = ["a"] then 1 else 2
  mtime := fun p => if p = ["a"] then 5 else 3

/-- A directory pair for exercising `DirectoryComparator::compare`:
`a` only in source, `b` in both with equal digests, `c` only in
destination. -/
def dirW : DirTrees where
  source_files := [["a"], ["b"]]
  dest_files := [["b"], ["c"]]
  srcDigest := fun _ => 1
  dstDigest := fun _ => 1

/-- A candidate carrying a file conflict under the Fail strategy. -/
def candFail : Candidate := ⟨true, .ok (.Conflict ["s"] ["d"] .Fail true)⟩

/-- A candidate carrying a plain creation. -/
def candCreate : Candidate := ⟨true, .ok (.Create ["x"] ["y"])⟩

/-- A candidate the pattern matcher excludes. -/
def candExcluded : Candidate := ⟨false, .ok (.Create ["x"] ["y"])⟩

/-- A filesystem on which no path exists any more. -/
def fsNone : FileSys where
  pathExists := fun _ => false
  digest := fun _ => 0
  mtime := fun _ => 0

/-- A candidate whose file vanished between scan and comparison: its
determination runs `FileComparator.compare` with both paths gone, which
errors, and the `?` in the orchestrator propagates that error. -/
def candVanished : Candidate :=
  ⟨true, determine_sync_action_file fsNone ["agents", "a.md"] ["dest", "a.md"] .Fail⟩

end CCSync

namespace CCSync

/-! ## Supporting lemmas -/

/-- The source-side loop of `DirectoryComparator::compare` computes three
filters of the source file list. -/
theorem classifySourceFiles_eq (t : DirTrees) (l : List Path) :
    classifySourceFiles t l =
      (l.filter (fun p => decide (p ∉ t.dest_files)),
       l.filter (fun p => decide (p ∈ t.dest_files) && decide (t.srcDigest p ≠ t.dstDigest p)),
       l.filter (fun p => decide (p ∈ t.dest_files) && decide (t.srcDigest p = t.dstDigest p))) := by
  induction l with
  | nil => simp [classifySourceFiles]
  | cons q rest ih =>
      by_cases hq : q ∈ t.dest_files <;> by_cases hd : t.srcDigest q = t.dstDigest q <;>
        simp [classifySourceFiles, ih, hq, hd]

theorem compare_added_eq (t : DirTrees) :
    (DirectoryComparator.compare t).added =
      t.source_files.filter (fun p => decide (p ∉ t.dest_files)) := by
  simp [DirectoryComparator.compare, classifySourceFiles_eq]

theorem compare_modified_eq (t : DirTrees) :
    (DirectoryComparator.compare t).modified =
      t.source_files.filter
        (fun p => decide (p ∈ t.dest_files) && decide (t.srcDigest p ≠ t.dstDigest p)) := by
  simp [DirectoryComparator.compare, classifySourceFiles_eq]

theorem compare_unchanged_eq (t : DirTrees) :
    (DirectoryComparator.compare t).unchanged =
      t.source_files.filter
        (fun p => decide (p ∈ t.dest_files) && decide (t.srcDigest p = t.dstDigest p)) := by
  simp [DirectoryComparator.compare, classifySourceFiles_eq]

theorem compare_removed_eq (t : DirTrees) :
    (DirectoryComparator.compare t).removed =
      t.dest_files.filter (fun p => decide (p ∉ t.source_files)) := by
  simp [DirectoryComparator.compare, classifySourceFiles_eq]

/-! ## Claims -/

/-- Claim C1: `FileComparator.compare(source, dest, strategy)` errors when
neither path exists, returns SourceOnly / DestinationOnly when exactly one
exists, and when both exist classifies by digest alone: equal digests give
Identical for every assignment of modification times, and unequal digests
give a Conflict whose `source_newer` is the strict modification-time
ordering and whose strategy is the caller's, unchanged. -/
theorem fileComparator_classifies (fs : FileSys) (s d : Path) (strat : ConflictStrategy) :
    (fs.pathExists s = false → fs.pathExists d = false →
      FileComparator.compare fs s d strat =
        .error ("Neither source nor destination file exists: source=" ++
          renderPath s ++ ", dest=" ++ renderPath d)) ∧
    (fs.pathExists s = true → fs.pathExists d = false →
      FileComparator.compare fs s d strat = .ok .SourceOnly) ∧
    (fs.pathExists s = false → fs.pathExists d = true →
      FileComparator.compare fs s d strat = .ok .DestinationOnly) ∧
    (fs.pathExists s = true → fs.pathExists d = true → fs.digest s = fs.digest d →
      FileComparator.compare fs s d strat = .ok .Identical) ∧
    (fs.pathExists s = true → fs.pathExists d = true → fs.digest s ≠ fs.digest d →
      FileComparator.compare fs s d strat =
        .ok (.Conflict (decide (fs.mtime d < fs.mtime s)) strat)) := by
  refine ⟨fun h1 h2 => ?_, fun h1 h2 => ?_, fun h1 h2 => ?_,
    fun h1 h2 h3 => ?_, fun h1 h2 h3 => ?_⟩ <;>
    simp [FileComparator.compare, TimestampComparator.is_newer, h1, h2]
  · exact h3
  · simp [h3]

/-- Witness for C1 at a concrete filesystem: both files exist with
different digests and the source strictly newer, so the comparison is a
Conflict with `source_newer = true` and the supplied strategy. -/
theorem fileComparator_classifies_witness :
    fsW.digest ["a"] ≠ fsW.digest ["b"] ∧
    FileComparator.compare fsW ["a"] ["b"] .Skip =
      .ok (.Conflict (decide (fsW.mtime ["b"] < fsW.mtime ["a"])) .Skip) :=
  ⟨by decide,
   (fileComparator_classifies fsW ["a"] ["b"] .Skip).2.2.2.2 (by decide) (by decide) (by decide)⟩

/-- Claim C3: the four sets of `DirectoryComparator.compare` partition
the relative paths under either root — every such path lands in exactly
one of added / modified / removed / unchanged, by the side(s) it exists
on and digest equality, and no path is in two sets. -/
theorem directoryComparison_partitions (t : DirTrees) (p : Path) :
    ((p ∈ t.source_files ∨ p ∈ t.dest_files) ↔
      (p ∈ (DirectoryComparator.compare t).added ∨
       p ∈ (DirectoryComparator.compare t).modified ∨
       p ∈ (DirectoryComparator.compare t).removed ∨
       p ∈ (DirectoryComparator.compare t).unchanged)) ∧
    (p ∈ t.source_files → p ∉ t.dest_files →
      p ∈ (DirectoryComparator.compare t).added) ∧
    (p ∈ t.dest_files → p ∉ t.source_files →
      p ∈ (DirectoryComparator.compare t).removed) ∧
    (p ∈ t.source_files → p ∈ t.dest_files → t.srcDigest p = t.dstDigest p →
      p ∈ (DirectoryComparator.compare t).unchanged) ∧
    (p ∈ t.source_files → p ∈ t.dest_files → t.srcDigest p ≠ t.dstDigest p →
      p ∈ (DirectoryComparator.compare t).modified) ∧
    ¬(p ∈ (DirectoryComparator.compare t).added ∧
        p ∈ (DirectoryComparator.compare t).modified) ∧
    ¬(p ∈ (DirectoryComparator.compare t).added ∧
        p ∈ (DirectoryComparator.compare t).removed) ∧
    ¬(p ∈ (DirectoryComparator.compare t).added ∧
        p ∈ (DirectoryComparator.compare t).unchanged) ∧
    ¬(p ∈ (DirectoryComparator.compare t).modified ∧
        p ∈ (DirectoryComparator.compare t).removed) ∧
    ¬(p ∈ (DirectoryComparator.compare t).modified ∧
        p ∈ (DirectoryComparator.compare t).unchanged) ∧
    ¬(p ∈ (DirectoryComparator.compare t).removed ∧
        p ∈ (DirectoryComparator.compare t).unchanged) := by
  simp only [compare_added_eq, compare_modified_eq, compare_removed_eq,
    compare_unchanged_eq, List.mem_filter, Bool.and_eq_true, decide_eq_true_eq]
  tauto

/-- Witness for C3 at a concrete directory pair: a path existing only in
the source is in `added`, a path on both sides with equal digests is in
`unchanged`. -/
theorem directoryComparison_partitions_witness :
    ["a"] ∈ (DirectoryComparator.compare dirW).added ∧
    ["b"] ∈ (DirectoryComparator.compare dirW).unchanged :=
  ⟨(directoryComparison_partitions dirW ["a"]).2.1 (by decide) (by decide),
   (directoryComparison_partitions dirW ["b"]).2.2.2.1 (by decide) (by decide) (by decide)⟩

/-- Claim C5: on file and directory conflicts, Skip mutates nothing and
counts a conflict (not a skip); Newer with a newer source is exactly
Overwrite and counts an update; Newer with a non-newer source mutates
nothing and counts a skip; Fail returns an error for the candidate. -/
theorem executor_conflict_strategy_table (dry : Bool) (s d : Path) (sn sn2 : Bool)
    (res : SyncResult) :
    (execute dry (.Conflict s d .Skip sn) res =
      .ok ({ res with conflicts := res.conflicts + 1 }, [])) ∧
    (execute dry (.DirectoryConflict s d .Skip sn) res =
      .ok ({ res with conflicts := res.conflicts + 1 }, [])) ∧
    (execute dry (.Conflict s d .Newer true) res =
      execute dry (.Conflict s d .Overwrite sn2) res) ∧
    (execute dry (.DirectoryConflict s d .Newer true) res =
      execute dry (.DirectoryConflict s d .Overwrite sn2) res) ∧
    (execute dry (.Conflict s d .Newer false) res =
      .ok ({ res with skipped := res.skipped + 1 }, [])) ∧
    (execute dry (.DirectoryConflict s d .Newer false) res =
      .ok ({ res with skipped := res.skipped + 1 }, [])) ∧
    (execute dry (.Conflict s d .Fail sn) res =
      .error ("Conflict: " ++ renderPath s ++ " <-> " ++ renderPath d ++
        " (use --conflict to resolve)")) ∧
    (execute dry (.DirectoryConflict s d .Fail sn) res =
      .error ("Directory conflict: " ++ renderPath s ++ " <-> " ++ renderPath d ++
        " (use --conflict to resolve)")) :=
  ⟨rfl, rfl, rfl, rfl, rfl, rfl, rfl, rfl⟩

/-- Claim C7: executing any action with dry-run produces exactly the
result (counters, skip reasons, error) of the non-dry-run execution on
the same pre-state, with an empty effect list: no copy, no directory
creation, no destination-subtree removal. -/
theorem executor_dry_run_frame (a : SyncAction) (res : SyncResult) :
    execute true a res =
      (execute false a res).map (fun p => (p.1, ([] : List Effect))) := by
  cases a with
  | Create s d => rfl
  | CreateDirectory s d => rfl
  | Skip p r => rfl
  | Conflict s d strat sn =>
      cases strat <;> cases sn <;> rfl
  | DirectoryConflict s d strat sn =>
      cases strat <;> cases sn <;> rfl

/-- A successful canonicalization ends on a path that exists and is not
a symlink (the OS resolves every link before answering). -/
theorem canonicalizeFuel_not_symlink (fs : SymFs) :
    ∀ n p q, canonicalizeFuel fs n p = some q →
      (fs q).isSymlinkNode = false ∧ fs q ≠ .absent := by
  intro n
  induction n with
  | zero => intro p q h; simp [canonicalizeFuel] at h
  | succ n ih =>
      intro p q h
      cases hp : fs p with
      | absent => simp [canonicalizeFuel, hp] at h
      | symlink t => exact ih t q (by simpa [canonicalizeFuel, hp] using h)
      | file =>
          simp [canonicalizeFuel, hp] at h
          subst h; simp [hp, FsNode.isSymlinkNode]
      | dir =>
          simp [canonicalizeFuel, hp] at h
          subst h; simp [hp, FsNode.isSymlinkNode]

/-- On a chain that never reaches a non-symlink, canonicalization fails
for every fuel bound (this is `ELOOP` for a cycle). -/
theorem canonicalizeFuel_none_of_chain (fs : SymFs) :
    ∀ n p, InfiniteSymlinkChain fs p → canonicalizeFuel fs n p = none := by
  intro n
  induction n with
  | zero => intro p _; rfl
  | succ n ih =>
      intro p h
      have h0 := h 0
      simp [iterTarget] at h0
      cases hp : fs p with
      | absent => rw [hp] at h0; simp [FsNode.isSymlinkNode] at h0
      | file => rw [hp] at h0; simp [FsNode.isSymlinkNode] at h0
      | dir => rw [hp] at h0; simp [FsNode.isSymlinkNode] at h0
      | symlink t =>
          have hchain : InfiniteSymlinkChain fs t := by
            intro m
            have := h (m + 1)
            simpa [iterTarget, hp] using this
          simp [canonicalizeFuel, hp, ih t hchain]

/-- Claim C6 (amended): on a symlink whose chain never reaches a
non-symlink — any symlink cycle in particular — non-preserve `resolve`
terminates and returns an error, but the broken-symlink error naming the
link's target: canonicalization itself fails on the cycle, so the
manual visited-set loop check never fires. -/
theorem symlink_cycle_resolve_errors (fs : SymFs) (p : Path)
    (h : InfiniteSymlinkChain fs p) :
    ∃ t, fs p = .symlink t ∧
      SymlinkResolver.resolve false fs p = .error (.brokenSymlink p t) := by
  have h0 := h 0
  simp [iterTarget] at h0
  cases hp : fs p with
  | absent => rw [hp] at h0; simp [FsNode.isSymlinkNode] at h0
  | file => rw [hp] at h0; simp [FsNode.isSymlinkNode] at h0
  | dir => rw [hp] at h0; simp [FsNode.isSymlinkNode] at h0
  | symlink t =>
      refine ⟨t, rfl, ?_⟩
      have hcanon : canonicalize fs p = none :=
        canonicalizeFuel_none_of_chain fs maxLinks p h
      simp [SymlinkResolver.resolve, hp, FsNode.isSymlinkNode,
        resolveSymlinkChain, chainFuel, resolveSymlinkChainFuel, hcanon,
        readLink]

/-- Every hop of the two-cycle stays inside the cycle. -/
theorem fsLoop_mem (n : Nat) :
    ∀ p, (p = ["link1"] ∨ p = ["link2"]) →
      (iterTarget fsLoop n p = ["link1"] ∨ iterTarget fsLoop n p = ["link2"]) := by
  have h1 : fsLoop ["link1"] = .symlink ["link2"] := rfl
  have h2 : fsLoop ["link2"] = .symlink ["link1"] := rfl
  induction n with
  | zero => intro p hp; simpa [iterTarget] using hp
  | succ n ih =>
      intro p hp
      rcases hp with h | h <;> subst h
      · rw [show iterTarget fsLoop (n + 1) ["link1"] = iterTarget fsLoop n ["link2"] by
          simp [iterTarget, h1]]
        exact ih ["link2"] (Or.inr rfl)
      · rw [show iterTarget fsLoop (n + 1) ["link2"] = iterTarget fsLoop n ["link1"] by
          simp [iterTarget, h2]]
        exact ih ["link1"] (Or.inl rfl)

/-- The two-cycle is an infinite symlink chain. -/
theorem fsLoop_chain : InfiniteSymlinkChain fsLoop ["link1"] := by
  intro n
  rcases fsLoop_mem n ["link1"] (Or.inl rfl) with h | h <;> rw [h] <;> rfl

/-- Counterexample for C6 as stated: on the concrete cycle
`link1 -> link2 -> link1`, non-preserve `resolve` errors, but with the
broken-symlink error, not the symlink-loop error the claim names. -/
theorem symlink_cycle_loop_error_refuted :
    SymlinkResolver.resolve false fsLoop ["link1"] =
      .error (.brokenSymlink ["link1"] ["link2"]) ∧
    SymlinkResolver.resolve false fsLoop ["link1"] ≠
      .error (.symlinkLoop ["link1"]) := by
  have h : SymlinkResolver.resolve false fsLoop ["link1"] =
      .error (.brokenSymlink ["link1"] ["link2"]) := by decide
  exact ⟨h, by simp [h]⟩

/-- Witness for the amended C6 on the concrete two-cycle. -/
theorem symlink_cycle_resolve_errors_witness :
    InfiniteSymlinkChain fsLoop ["link1"] ∧
    ∃ t, fsLoop ["link1"] = .symlink t ∧
      SymlinkResolver.resolve false fsLoop ["link1"] =
        .error (.brokenSymlink ["link1"] t) :=
  ⟨fsLoop_chain, symlink_cycle_resolve_errors fsLoop ["link1"] fsLoop_chain⟩

/-- Claim C9: in preserve mode, `resolve` succeeds on every path whose
symlink metadata is readable — a symlink comes back as preserved without
its target being read, so broken links and cycles succeed silently. -/
theorem preserve_mode_never_fails (fs : SymFs) (p : Path) (h : fs p ≠ .absent) :
    SymlinkResolver.resolve true fs p =
      .ok (if (fs p).isSymlinkNode then .Symlink p else .Regular p) := by
  cases hn : fs p with
  | absent => exact absurd hn h
  | file => simp [SymlinkResolver.resolve, hn, FsNode.isSymlinkNode]
  | dir => simp [SymlinkResolver.resolve, hn, FsNode.isSymlinkNode]
  | symlink t => simp [SymlinkResolver.resolve, hn, FsNode.isSymlinkNode]

/-- Witness for C9: on the cyclic filesystem — where non-preserve mode
fails — preserve mode succeeds and hands the link back unresolved. -/
theorem preserve_mode_never_fails_witness :
    SymlinkResolver.resolve true fsLoop ["link1"] = .ok (.Symlink ["link1"]) := by
  have h := preserve_mode_never_fails fsLoop ["link1"] (by decide)
  simpa [show fsLoop ["link1"] = .symlink ["link2"] from rfl,
    FsNode.isSymlinkNode] using h

/-- The filtering-and-resolution loop of the scanner keeps exactly the
resolvable filtered candidates and warns exactly on the failed ones. -/
theorem resolvePhase_eq (filterF : Path → Bool)
    (resolver : Path → Except ResolveError ResolvedPath) (l : List ScannedFile) :
    resolvePhase filterF resolver l =
      ((l.filter (fun f => filterF f.path)).filterMap
        (fun f => match resolver f.path with
          | .ok r => some ⟨r.into_path, f.mode⟩
          | .error _ => none),
       (l.filter (fun f => filterF f.path)).filterMap
        (fun f => match resolver f.path with
          | .ok _ => none
          | .error e => some ("Symlink resolution failed: " ++ e.render))) := by
  induction l with
  | nil => simp [resolvePhase]
  | cons f rest ih =>
      by_cases hf : filterF f.path
      · cases hr : resolver f.path <;>
          simp [resolvePhase, hf, hr, ih]
      · simp [resolvePhase, hf, ih]

/-- The three-subtree phase of the scanner yields the readable
candidates and one warning per unreadable subtree. -/
theorem subtree_phase_eq (fs : ScanFs) :
    subtreeStep (subtreeStep (subtreeStep ([], []) fs.agents .Flat "agents")
        fs.skills .OneLevel "skills") fs.commands .Recursive "commands" =
      (subtreeFiles fs, subtreeWarnings fs) := by
  obtain ⟨a, s, c⟩ := fs
  cases a <;> cases s <;> cases c <;>
    simp [subtreeStep, Scanner.scan_directory, subtreeFiles, subtreeWarnings,
      dirFiles, dirWarnings]

/-- Claim C8: scanning is total over the run — a missing subtree scans
to `Ok([])` with no warning, an unreadable subtree contributes no
candidates and exactly one warning, and every filtered candidate whose
resolution fails becomes one warning and is dropped, the rest surviving
under their resolved paths. -/
theorem scanner_scan_never_fails (filterF : Path → Bool)
    (resolver : Path → Except ResolveError ResolvedPath) (fs : ScanFs) :
    (∀ mode, Scanner.scan_directory .missing mode = .ok []) ∧
    (Scanner.scan filterF resolver fs).files =
      ((subtreeFiles fs).filter (fun f => filterF f.path)).filterMap
        (fun f => match resolver f.path with
          | .ok r => some ⟨r.into_path, f.mode⟩
          | .error _ => none) ∧
    (Scanner.scan filterF resolver fs).warnings =
      subtreeWarnings fs ++
        ((subtreeFiles fs).filter (fun f => filterF f.path)).filterMap
          (fun f => match resolver f.path with
            | .ok _ => none
            | .error e => some ("Symlink resolution failed: " ++ e.render)) := by
  refine ⟨fun _ => rfl, ?_, ?_⟩ <;>
    simp [Scanner.scan, subtree_phase_eq, resolvePhase_eq]

/-! ## Orchestrator lemmas -/

/-- Bumping a skip reason raises the recorded total by exactly one. -/
theorem sumReasons_bumpReason (m : List (String × Nat)) (k : String) :
    sumReasons (bumpReason m k) = sumReasons m + 1 := by
  induction m with
  | nil => simp [bumpReason, sumReasons]
  | cons kv rest ih =>
      obtain ⟨k', v⟩ := kv
      by_cases hk : k' = k <;> simp [bumpReason, hk, sumReasons] at * <;> omega

/-- A successful execution never touches the error list, and moves the
skipped counter and the skip-reason total by matching small deltas (the
reason total never outruns the counter). -/
theorem execute_ok_shape (dry : Bool) (a : SyncAction) (res r : SyncResult)
    (eff : List Effect) (h : execute dry a res = .ok (r, eff)) :
    r.errors = res.errors ∧
    ∃ ds dr, r.skipped = res.skipped + ds ∧
      sumReasons r.skip_reasons = sumReasons res.skip_reasons + dr ∧ dr ≤ ds := by
  cases a with
  | Create s d =>
      simp [execute] at h
      obtain ⟨h1, -⟩ := h
      subst h1
      exact ⟨rfl, 0, 0, by simp, by simp, le_refl 0⟩
  | CreateDirectory s d =>
      simp [execute] at h
      obtain ⟨h1, -⟩ := h
      subst h1
      exact ⟨rfl, 0, 0, by simp, by simp, le_refl 0⟩
  | Skip p reason =>
      simp [execute] at h
      obtain ⟨h1, -⟩ := h
      subst h1
      exact ⟨rfl, 1, 1, by simp, by simp [sumReasons_bumpReason], le_refl 1⟩
  | Conflict s d strat sn =>
      cases strat with
      | Fail => simp [execute, handle_conflict] at h
      | Overwrite =>
          simp [execute, handle_conflict] at h
          obtain ⟨h1, -⟩ := h
          subst h1
          exact ⟨rfl, 0, 0, by simp, by simp, le_refl 0⟩
      | Skip =>
          simp [execute, handle_conflict] at h
          obtain ⟨h1, -⟩ := h
          subst h1
          exact ⟨rfl, 0, 0, by simp, by simp, le_refl 0⟩
      | Newer =>
          cases sn
          · simp [execute, handle_conflict] at h
            obtain ⟨h1, -⟩ := h
            subst h1
            exact ⟨rfl, 1, 0, by simp, by simp, Nat.zero_le 1⟩
          · simp [execute, handle_conflict] at h
            obtain ⟨h1, -⟩ := h
            subst h1
            exact ⟨rfl, 0, 0, by simp, by simp, le_refl 0⟩
  | DirectoryConflict s d strat sn =>
      cases strat with
      | Fail => simp [execute, handle_directory_conflict] at h
      | Overwrite =>
          simp [execute, handle_directory_conflict] at h
          obtain ⟨h1, -⟩ := h
          subst h1
          exact ⟨rfl, 0, 0, by simp, by simp, le_refl 0⟩
      | Skip =>
          simp [execute, handle_directory_conflict] at h
          obtain ⟨h1, -⟩ := h
          subst h1
          exact ⟨rfl, 0, 0, by simp, by simp, le_refl 0⟩
      | Newer =>
          cases sn
          · simp [execute, handle_directory_conflict] at h
            obtain ⟨h1, -⟩ := h
            subst h1
            exact ⟨rfl, 1, 0, by simp, by simp, Nat.zero_le 1⟩
          · simp [execute, handle_directory_conflict] at h
            obtain ⟨h1, -⟩ := h
            subst h1
            exact ⟨rfl, 0, 0, by simp, by simp, le_refl 0⟩

/-- A non-aborting approval never touches the error list, and a decline
moves the skipped counter and the reason total together. -/
theorem apply_approval_ok_shape (a : SyncAction)
    (appr : Option (SyncAction → Approval)) (res : SyncResult)
    (oa : Option SyncAction) (r : SyncResult)
    (h : apply_approval a appr res = .ok (oa, r)) :
    r.errors = res.errors ∧
    ∃ ds dr, r.skipped = res.skipped + ds ∧
      sumReasons r.skip_reasons = sumReasons res.skip_reasons + dr ∧ dr ≤ ds := by
  cases appr with
  | none =>
      simp [apply_approval] at h
      obtain ⟨-, h2⟩ := h
      subst h2
      exact ⟨rfl, 0, 0, by simp, by simp, le_refl 0⟩
  | some f =>
      cases hv : f a with
      | proceed =>
          simp [apply_approval, hv] at h
          obtain ⟨-, h2⟩ := h
          subst h2
          exact ⟨rfl, 0, 0, by simp, by simp, le_refl 0⟩
      | decline =>
          simp [apply_approval, hv] at h
          obtain ⟨-, h2⟩ := h
          subst h2
          exact ⟨rfl, 1, 1, by simp, by simp [sumReasons_bumpReason], le_refl 1⟩
      | abort msg => simp [apply_approval, hv] at h

/-- The only error `apply_approval` can produce is an approver abort. -/
theorem apply_approval_error (a : SyncAction)
    (appr : Option (SyncAction → Approval)) (res : SyncResult) (e : String)
    (h : apply_approval a appr res = .error e) :
    ∃ f, appr = some f ∧ f a = .abort e := by
  cases appr with
  | none => simp [apply_approval] at h
  | some f =>
      cases hv : f a with
      | proceed => simp [apply_approval, hv] at h
      | decline => simp [apply_approval, hv] at h
      | abort msg =>
          simp [apply_approval, hv] at h
          exact ⟨f, rfl, by rw [hv, h]⟩

/-- A successful candidate step only appends to the error list, and its
skip deltas keep the reason total at or below the skipped counter — with
strict growth of the gap when the pattern matcher excluded the
candidate. -/
theorem processCandidate_ok_shape (dry : Bool)
    (appr : Option (SyncAction → Approval)) (c : Candidate) (res r : SyncResult)
    (h : processCandidate dry appr c res = .ok r) :
    (∃ t, r.errors = res.errors ++ t) ∧
    ∃ ds dr, r.skipped = res.skipped + ds ∧
      sumReasons r.skip_reasons = sumReasons res.skip_reasons + dr ∧
      dr ≤ ds ∧ (c.included = false → dr < ds) := by
  by_cases hinc : c.included = false
  · simp [processCandidate, hinc] at h
    subst h
    exact ⟨⟨[], by simp⟩, 1, 0, by simp, by simp, Nat.zero_le 1, fun _ => Nat.zero_lt_one⟩
  · have hinc' : c.included = true := by
      cases hcase : c.included
      · exact absurd hcase hinc
      · rfl
    cases hdet : c.determined with
    | error e => simp [processCandidate, hinc', hdet] at h
    | ok action =>
    by_cases hskip : action.isSkip
    · cases hx : execute dry action res with
      | ok pr =>
          obtain ⟨r0, eff⟩ := pr
          simp [processCandidate, hinc', hdet, hskip, hx] at h
          subst h
          obtain ⟨he, ds, dr, hs, hm, hle⟩ := execute_ok_shape dry action res r0 eff hx
          exact ⟨⟨[], by simp [he]⟩, ds, dr, hs, hm, hle,
            fun hcf => absurd hcf hinc⟩
      | error e =>
          simp [processCandidate, hinc', hdet, hskip, hx] at h
          subst h
          exact ⟨⟨[e], rfl⟩, 0, 0, by simp, by simp, le_refl 0,
            fun hcf => absurd hcf hinc⟩
    · cases ha : apply_approval action appr res with
      | error e =>
          simp [processCandidate, hinc', hdet, hskip, ha] at h
      | ok pr =>
          obtain ⟨oa, r1⟩ := pr
          obtain ⟨he1, ds1, dr1, hs1, hm1, hle1⟩ :=
            apply_approval_ok_shape action appr res oa r1 ha
          cases oa with
          | none =>
              simp [processCandidate, hinc', hdet, hskip, ha] at h
              subst h
              exact ⟨⟨[], by simp [he1]⟩, ds1, dr1, hs1, hm1, hle1,
                fun hcf => absurd hcf hinc⟩
          | some a2 =>
              cases hx : execute dry a2 r1 with
              | ok pr2 =>
                  obtain ⟨r2, eff⟩ := pr2
                  simp [processCandidate, hinc', hdet, hskip, ha, hx] at h
                  subst h
                  obtain ⟨he2, ds2, dr2, hs2, hm2, hle2⟩ :=
                    execute_ok_shape dry a2 r1 r2 eff hx
                  exact ⟨⟨[], by simp [he2, he1]⟩, ds1 + ds2, dr1 + dr2,
                    by omega, by omega, by omega, fun hcf => absurd hcf hinc⟩
              | error e =>
                  simp [processCandidate, hinc', hdet, hskip, ha, hx] at h
                  subst h
                  exact ⟨⟨[e], by simp [he1]⟩, ds1, dr1, by simpa using hs1,
                    by simpa using hm1, hle1, fun hcf => absurd hcf hinc⟩

/-- Under a never-aborting approver, a candidate whose determination
succeeded steps successfully and computes the total step function. -/
theorem processCandidate_ok (dry : Bool) (appr : Option (SyncAction → Approval))
    (c : Candidate) (res : SyncResult) (h : NeverAborts appr)
    (hdetc : c.included = true → ∃ a, c.determined = Except.ok a) :
    processCandidate dry appr c res = .ok (stepOk dry appr res c) := by
  have hex : ∃ r, processCandidate dry appr c res = .ok r := by
    by_cases hinc : c.included = false
    · exact ⟨{ res with skipped := res.skipped + 1 }, by simp [processCandidate, hinc]⟩
    · have hinc' : c.included = true := by
        cases hcase : c.included
        · exact absurd hcase hinc
        · rfl
      obtain ⟨action, hdet⟩ := hdetc hinc'
      by_cases hskip : action.isSkip
      · cases hx : execute dry action res with
        | ok pr =>
            obtain ⟨r0, eff⟩ := pr
            exact ⟨r0, by simp [processCandidate, hinc', hdet, hskip, hx]⟩
        | error e =>
            exact ⟨{ res with errors := res.errors ++ [e] },
              by simp [processCandidate, hinc', hdet, hskip, hx]⟩
      · cases ha : apply_approval action appr res with
        | error e =>
            obtain ⟨f, hf, hab⟩ := apply_approval_error action appr res e ha
            exact absurd hab (h f hf action e)
        | ok pr =>
            obtain ⟨oa, r1⟩ := pr
            cases oa with
            | none => exact ⟨r1, by simp [processCandidate, hinc', hdet, hskip, ha]⟩
            | some a2 =>
                cases hx : execute dry a2 r1 with
                | ok pr2 =>
                    obtain ⟨r2, eff⟩ := pr2
                    exact ⟨r2, by simp [processCandidate, hinc', hdet, hskip, ha, hx]⟩
                | error e =>
                    exact ⟨{ r1 with errors := r1.errors ++ [e] },
                      by simp [processCandidate, hinc', hdet, hskip, ha, hx]⟩
  obtain ⟨r, hr⟩ := hex
  simp [stepOk, hr]

/-- Under a never-aborting approver and successful determinations, the
candidate loop runs to the end and folds the total step function over
every candidate. -/
theorem runCandidates_eq_foldl (dry : Bool)
    (appr : Option (SyncAction → Approval)) (h : NeverAborts appr) :
    ∀ (cands : List Candidate), DeterminationSucceeds cands →
      ∀ (res : SyncResult),
        runCandidates dry appr cands res = .ok (cands.foldl (stepOk dry appr) res) := by
  intro cands
  induction cands with
  | nil => intro _ res; rfl
  | cons c rest ih =>
      intro hdet res
      have hrest : DeterminationSucceeds rest :=
        fun c2 hc2 => hdet c2 (List.mem_cons_of_mem c hc2)
      simp [runCandidates,
        processCandidate_ok dry appr c res h (hdet c (List.mem_cons_self c rest)),
        ih hrest]

/-- Along a completed candidate loop the error list only grows by
appending, and the skipped counter outgrows the skip-reason total by at
least the number of pattern-excluded candidates. -/
theorem runCandidates_ok_shape (dry : Bool)
    (appr : Option (SyncAction → Approval)) :
    ∀ (cands : List Candidate) (res final : SyncResult),
      runCandidates dry appr cands res = .ok final →
      (∃ t, final.errors = res.errors ++ t) ∧
      ∃ ds dr, final.skipped = res.skipped + ds ∧
        sumReasons final.skip_reasons = sumReasons res.skip_reasons + dr ∧
        dr ≤ ds ∧ ((∃ c ∈ cands, c.included = false) → dr < ds) := by
  intro cands
  induction cands with
  | nil =>
      intro res final h
      simp [runCandidates] at h
      subst h
      refine ⟨⟨[], by simp⟩, 0, 0, by simp, by simp, le_refl 0, ?_⟩
      rintro ⟨c, hc, -⟩
      simp at hc
  | cons c rest ih =>
      intro res final h
      cases hpc : processCandidate dry appr c res with
      | error e => simp [runCandidates, hpc] at h
      | ok r1 =>
          simp [runCandidates, hpc] at h
          obtain ⟨⟨t1, he1⟩, ds1, dr1, hs1, hm1, hle1, hstrict1⟩ :=
            processCandidate_ok_shape dry appr c res r1 hpc
          obtain ⟨⟨t2, he2⟩, ds2, dr2, hs2, hm2, hle2, hstrict2⟩ := ih r1 final h
          refine ⟨⟨t1 ++ t2, by rw [he2, he1, List.append_assoc]⟩,
            ds1 + ds2, dr1 + dr2, by omega, by omega, by omega, ?_⟩
          rintro ⟨c2, hc2, hcex⟩
          rcases List.mem_cons.mp hc2 with rfl | hmem
          · have := hstrict1 hcex
            omega
          · have := hstrict2 ⟨c2, hmem, hcex⟩
            omega

/-- Claim C2: approving an action whose strategy is Fail rewrites that
single action to Overwrite before execution — for file and directory
conflicts alike — so the destination is replaced and the updated counter
increments rather than the Fail branch aborting; approved actions with
any other strategy are executed unchanged. -/
theorem approval_upgrades_fail_to_overwrite (appr : SyncAction → Approval)
    (s d : Path) (sn : Bool) (res : SyncResult) (dry : Bool) :
    (appr (.Conflict s d .Fail sn) = .proceed →
      apply_approval (.Conflict s d .Fail sn) (some appr) res =
        .ok (some (.Conflict s d .Overwrite sn), res)) ∧
    (appr (.DirectoryConflict s d .Fail sn) = .proceed →
      apply_approval (.DirectoryConflict s d .Fail sn) (some appr) res =
        .ok (some (.DirectoryConflict s d .Overwrite sn), res)) ∧
    (∀ strat, strat ≠ .Fail →
      appr (.Conflict s d strat sn) = .proceed →
      apply_approval (.Conflict s d strat sn) (some appr) res =
        .ok (some (.Conflict s d strat sn), res)) ∧
    (∀ strat, strat ≠ .Fail →
      appr (.DirectoryConflict s d strat sn) = .proceed →
      apply_approval (.DirectoryConflict s d strat sn) (some appr) res =
        .ok (some (.DirectoryConflict s d strat sn), res)) ∧
    (appr (.Conflict s d .Fail sn) = .proceed →
      processCandidate dry (some appr) ⟨true, .ok (.Conflict s d .Fail sn)⟩ res =
        .ok { res with updated := res.updated + 1 }) ∧
    (appr (.DirectoryConflict s d .Fail sn) = .proceed →
      processCandidate dry (some appr) ⟨true, .ok (.DirectoryConflict s d .Fail sn)⟩ res =
        .ok { res with updated := res.updated + 1 }) ∧
    (execute dry (.Conflict s d .Overwrite sn) res =
      .ok ({ res with updated := res.updated + 1 },
        if dry then [] else [.copyFile s d])) ∧
    (execute dry (.DirectoryConflict s d .Overwrite sn) res =
      .ok ({ res with updated := res.updated + 1 },
        if dry then [] else [.removeDirAll d, .copyDir s d])) := by
  refine ⟨fun h => by simp [apply_approval, h],
    fun h => by simp [apply_approval, h], ?_, ?_, ?_, ?_, rfl, rfl⟩
  · intro strat hne h
    cases strat with
    | Fail => exact absurd rfl hne
    | Overwrite => simp [apply_approval, h]
    | Skip => simp [apply_approval, h]
    | Newer => simp [apply_approval, h]
  · intro strat hne h
    cases strat with
    | Fail => exact absurd rfl hne
    | Overwrite => simp [apply_approval, h]
    | Skip => simp [apply_approval, h]
    | Newer => simp [apply_approval, h]
  · intro h
    simp [processCandidate, SyncAction.isSkip, apply_approval, h, execute,
      handle_conflict]
  · intro h
    simp [processCandidate, SyncAction.isSkip, apply_approval, h, execute,
      handle_directory_conflict]

/-- Witness for C2: an always-proceeding approver on a Fail-strategy file
conflict yields one update, not an abort. -/
theorem approval_upgrades_fail_to_overwrite_witness :
    processCandidate false (some (fun _ => .proceed)) candFail initResult =
      .ok { initResult with updated := 1 } := by
  have h := (approval_upgrades_fail_to_overwrite (fun _ => .proceed)
    ["s"] ["d"] true initResult false).2.2.2.2.1 rfl
  simpa [candFail, initResult] using h

/-- Counterexample for C4 as stated: a per-candidate error that is not
an approver abort does terminate processing early.  A candidate whose
paths vanished between scan and comparison makes `determine_sync_action`
(via `FileComparator.compare`) return an error, and the `?` in the
orchestrator loop propagates it at once with no approver in play: the
trailing candidate is never attempted and the message is not the
end-of-run bundle. -/
theorem sync_determination_error_short_circuits :
    sync_with_approver false none [candVanished, candCreate] =
      .error ("Neither source nor destination file exists: " ++
        "source=agents/a.md, dest=dest/a.md") ∧
    ("Neither source nor destination file exists: " ++
        "source=agents/a.md, dest=dest/a.md") ≠
      failMessage ["Neither source nor destination file exists: " ++
        "source=agents/a.md, dest=dest/a.md"] := by
  constructor
  · rfl
  · decide

/-- Claim C4 (amended): per-action execution errors (a Fail conflict hit
without approval included) never terminate processing early — under a
never-aborting approver and successful action determinations the loop
attempts every candidate, execution errors only append to the error
list, and the run fails at the end exactly when that list is non-empty,
bundling every collected message.  An approver abort — or a failed
action determination (comparison error) — short-circuits the run
immediately with its own error. -/
theorem sync_collects_errors_only_abort_short_circuits (dry : Bool) :
    (∀ (appr : Option (SyncAction → Approval)), NeverAborts appr →
      ∀ (cands : List Candidate), DeterminationSucceeds cands →
      ∀ (res : SyncResult),
        runCandidates dry appr cands res =
          .ok (cands.foldl (stepOk dry appr) res)) ∧
    (∀ (appr : Option (SyncAction → Approval)), NeverAborts appr →
      ∀ (cands : List Candidate), DeterminationSucceeds cands →
        sync_with_approver dry appr cands =
          if (cands.foldl (stepOk dry appr) initResult).errors.isEmpty
          then .ok (cands.foldl (stepOk dry appr) initResult)
          else .error (failMessage (cands.foldl (stepOk dry appr) initResult).errors)) ∧
    (∀ (appr : Option (SyncAction → Approval)) (c : Candidate) (res r : SyncResult),
      processCandidate dry appr c res = .ok r →
      ∃ t, r.errors = res.errors ++ t) ∧
    (∀ (f : SyncAction → Approval) (c : Candidate) (rest : List Candidate)
        (res : SyncResult) (a : SyncAction) (msg : String),
      c.included = true → c.determined = .ok a → a.isSkip = false →
      f a = .abort msg →
      runCandidates dry (some f) (c :: rest) res = .error msg) ∧
    (∀ (appr : Option (SyncAction → Approval)) (c : Candidate)
        (rest : List Candidate) (res : SyncResult) (e : String),
      c.included = true → c.determined = .error e →
      runCandidates dry appr (c :: rest) res = .error e) := by
  refine ⟨fun appr h cands hdet res => runCandidates_eq_foldl dry appr h cands hdet res,
    ?_, fun appr c res r h => (processCandidate_ok_shape dry appr c res r h).1, ?_, ?_⟩
  · intro appr h cands hdet
    simp [sync_with_approver, runCandidates_eq_foldl dry appr h cands hdet initResult]
  · intro f c rest res a msg hinc hdet hskip habort
    simp [runCandidates, processCandidate, hinc, hdet, hskip, apply_approval, habort]
  · intro appr c rest res e hinc hdet
    simp [runCandidates, processCandidate, hinc, hdet]

/-- Witness for the amended C4: a Fail conflict without an approver is
collected and the second candidate still runs (the final state records
its creation); the run then fails carrying the collected message. -/
theorem sync_collects_errors_witness :
    sync_with_approver false none [candFail, candCreate] =
      .error (failMessage ["Conflict: s <-> d (use --conflict to resolve)"]) ∧
    ([candFail, candCreate].foldl (stepOk false none) initResult).created = 1 := by
  have h := (sync_collects_errors_only_abort_short_circuits false).2.1 none
    (fun f hf => Option.noConfusion hf) [candFail, candCreate]
    (by
      intro c hc hcinc
      simp [candFail, candCreate] at hc
      rcases hc with rfl | rfl
      · exact ⟨_, rfl⟩
      · exact ⟨_, rfl⟩)
  constructor
  · rw [h]; rfl
  · rfl

/-- Claim C10: at the end of every completed run the skip-reason totals
never exceed the skipped counter, and fall strictly short of it whenever
the pattern matcher excluded at least one candidate. -/
theorem skip_reason_totals_bounded (dry : Bool)
    (appr : Option (SyncAction → Approval)) (cands : List Candidate)
    (final : SyncResult)
    (h : runCandidates dry appr cands initResult = .ok final) :
    sumReasons final.skip_reasons ≤ final.skipped ∧
    ((∃ c ∈ cands, c.included = false) →
      sumReasons final.skip_reasons < final.skipped) := by
  obtain ⟨-, ds, dr, hs, hm, hle, hstrict⟩ :=
    runCandidates_ok_shape dry appr cands initResult final h
  have h0 : sumReasons initResult.skip_reasons = 0 := rfl
  have h1 : initResult.skipped = 0 := rfl
  constructor
  · omega
  · intro hex
    have := hstrict hex
    omega

/-- Witness for C10: one pattern-excluded candidate gives skipped = 1
with an empty reason multiset. -/
theorem skip_reason_totals_bounded_witness :
    sumReasons ({ initResult with skipped := 1 } : SyncResult).skip_reasons <
      ({ initResult with skipped := 1 } : SyncResult).skipped :=
  (skip_reason_totals_bounded false none [candExcluded]
    { initResult with skipped := 1 } rfl).2
    ⟨candExcluded, by simp, rfl⟩

end CCSync
